import Mathlib

/-!
Shallow embedding of the todos-service core: the generic in-memory storage
engine (`InMemory`), the task service layered over an abstract storage
capability (`Repo`), and the title validation function.  Stateful Go methods
become explicit state-passing functions; `context.Context` cancellation is
modelled by an `Option CtxErr` observation (the two `ctx.Err()` checks of each
storage operation, before and after lock acquisition, see the same value in a
sequential embedding); Go's `uint64` sequence counter is a `Nat` reduced
modulo `2 ^ 64` where it is incremented.
-/

namespace Todos

/-- Modulus of Go's `uint64`. -/
def U64 : Nat := 2 ^ 64

/-- Go error values reachable in the core: the two `domain` sentinel errors,
the two context errors, `fmt.Errorf("...: %w", inner)` wrapping, and an
arbitrary other error (`errors.New(msg)`). -/
inductive GoError where
  | notExists
  | emptyTitle
  | canceled
  | deadlineExceeded
  | wrapped (msg : String) (inner : GoError)
  | other (msg : String)
  deriving DecidableEq

/-- `errors.Is`: compare, then follow the `%w` unwrap chain. -/
def errorsIs : GoError → GoError → Bool
  | .wrapped msg inner, target =>
      decide (GoError.wrapped msg inner = target) || errorsIs inner target
  | err, target => decide (err = target)

/-- Whether an error is a `fmt.Errorf("...: %w", _)` wrapper. -/
def GoError.isWrapper : GoError → Bool
  | .wrapped _ _ => true
  | _ => false

/-- The error a fired `context.Context` reports. -/
inductive CtxErr where
  | canceled
  | deadlineExceeded
  deriving DecidableEq

def CtxErr.toErr : CtxErr → GoError
  | .canceled => .canceled
  | .deadlineExceeded => .deadlineExceeded

/-- A context observation: `none` is a live context (`ctx.Err() == nil`),
`some e` a context whose cancellation/deadline signal has fired. -/
abbrev Ctx := Option CtxErr

instance {ε α : Type} [DecidableEq ε] [DecidableEq α] : DecidableEq (Except ε α) :=
  fun x y =>
    match x, y with
    | .ok a, .ok b =>
        if h : a = b then .isTrue (by rw [h]) else .isFalse (by simp [h])
    | .ok _, .error _ => .isFalse (by simp)
    | .error _, .ok _ => .isFalse (by simp)
    | .error e, .error f =>
        if h : e = f then .isTrue (by rw [h]) else .isFalse (by simp [h])

/-! ### Go map operations (association-list model of `map[uint64]V`) -/

/-- `m[k] = v` (insert or overwrite). -/
def mapSet {V : Type} : List (Nat × V) → Nat → V → List (Nat × V)
  | [], k, v => [(k, v)]
  | (k', v') :: rest, k, v =>
      if k' = k then (k, v) :: rest else (k', v') :: mapSet rest k v

/-- `v, ok := m[k]` (lookup). -/
def mapGet {V : Type} : List (Nat × V) → Nat → Option V
  | [], _ => none
  | (k', v') :: rest, k => if k' = k then some v' else mapGet rest k

/-- `delete(m, k)`. -/
def mapDel {V : Type} : List (Nat × V) → Nat → List (Nat × V)
  | [], _ => []
  | (k', v') :: rest, k =>
      if k' = k then mapDel rest k else (k', v') :: mapDel rest k

/-! ### Domain types -/

/-- `domain.TaskSchema`. -/
structure TaskSchema where
  Title : String
  Description : String
  IsDone : Bool
  deriving DecidableEq

/-- `domain.Task` (identifier plus embedded schema). -/
structure Task where
  ID : Nat
  schema : TaskSchema
  deriving DecidableEq

/-- `domain.Elem`: an (identifier, value) pair returned by `GetAll`. -/
structure Elem (V : Type) where
  ID : Nat
  Value : V
  deriving DecidableEq

/-! ### Storage engine (`storage.InMemory`) -/

/-- The state of `storage.InMemory[V]`: the sequence counter and the map.
The `sync.RWMutex` has no sequential content beyond atomicity. -/
structure InMemory (V : Type) where
  serialID : Nat
  data : List (Nat × V)
  deriving DecidableEq

/-- `storage.NewInMemory`. -/
def NewInMemory {V : Type} : InMemory V :=
  { serialID := 1, data := [] }

/-- `InMemory.Save`: on a fired context, fail without mutating; otherwise
auto-assign from the sequence when `id = 0` (advancing it, with `uint64`
wraparound), else upsert at the given `id` verbatim. -/
def InMemory.Save {V : Type} (ctx : Ctx) (m : InMemory V) (value : V) (id : Nat) :
    Except GoError Nat × InMemory V :=
  match ctx with
  | some e => (.error e.toErr, m)
  | none =>
      let id' := if id = 0 then m.serialID else id
      let serial' := if id = 0 then (m.serialID + 1) % U64 else m.serialID
      (.ok id', { serialID := serial', data := mapSet m.data id' value })

/-- `InMemory.GetByID` (read-only). -/
def InMemory.GetByID {V : Type} (ctx : Ctx) (m : InMemory V) (id : Nat) :
    Except GoError V :=
  match ctx with
  | some e => .error e.toErr
  | none =>
      match mapGet m.data id with
      | none => .error .notExists
      | some v => .ok v

/-- `InMemory.GetAll` (read-only; Go map iteration order is unspecified, the
embedding returns insertion order, one permutation of it). -/
def InMemory.GetAll {V : Type} (ctx : Ctx) (m : InMemory V) :
    Except GoError (List (Elem V)) :=
  match ctx with
  | some e => .error e.toErr
  | none => .ok (m.data.map fun p => { ID := p.1, Value := p.2 })

/-- `InMemory.Delete`: fail on fired context or absent id, else remove. -/
def InMemory.Delete {V : Type} (ctx : Ctx) (m : InMemory V) (id : Nat) :
    Except GoError Unit × InMemory V :=
  match ctx with
  | some e => (.error e.toErr, m)
  | none =>
      match mapGet m.data id with
      | none => (.error .notExists, m)
      | some _ => (.ok (), { serialID := m.serialID, data := mapDel m.data id })

/-! ### Validation (`utils.Validate`) -/

/-- Go `unicode.IsSpace`: the Unicode White_Space property. -/
def goIsSpace (c : Char) : Bool :=
  let n := c.toNat
  n = 0x20 || (0x9 ≤ n && n ≤ 0xD) || n = 0x85 || n = 0xA0 || n = 0x1680 ||
    (0x2000 ≤ n && n ≤ 0x200A) || n = 0x2028 || n = 0x2029 || n = 0x202F ||
    n = 0x205F || n = 0x3000

/-- `strings.TrimSpace` on the character list. -/
def trimChars (l : List Char) : List Char :=
  ((l.dropWhile goIsSpace).reverse.dropWhile goIsSpace).reverse

/-- `strings.TrimSpace`. -/
def goTrimSpace (s : String) : String :=
  ⟨trimChars s.toList⟩

/-- `utils.Validate`: reject a task whose trimmed title is empty. -/
def Validate (task : TaskSchema) : Except GoError Unit :=
  if goTrimSpace task.Title = "" then .error .emptyTitle else .ok ()

/-! ### Task service (`usecases.TaskService`) over the storage capability -/

/-- The `TaskStorage` interface the service depends on, over a storage state
type `σ` (the Go tests substitute mocks for the in-memory engine here). -/
structure Repo (σ : Type) where
  save : Ctx → σ → TaskSchema → Nat → Except GoError Nat × σ
  getByID : Ctx → σ → Nat → Except GoError TaskSchema
  getAll : Ctx → σ → Except GoError (List (Elem TaskSchema))
  del : Ctx → σ → Nat → Except GoError Unit × σ

/-- The in-memory engine instantiating the `TaskStorage` interface. -/
def inMemoryRepo : Repo (InMemory TaskSchema) :=
  { save := InMemory.Save
    getByID := InMemory.GetByID
    getAll := InMemory.GetAll
    del := InMemory.Delete }

/-- `TaskService.Create`: build the task with `IsDone = false`, validate
before any storage call, save with identifier 0, return the populated task. -/
def TaskService.Create {σ : Type} (r : Repo σ) (ctx : Ctx) (s : σ)
    (title description : String) : Except GoError Task × σ :=
  let task : TaskSchema := { Title := title, Description := description, IsDone := false }
  match Validate task with
  | .error e => (.error (.wrapped "validation failed" e), s)
  | .ok () =>
      match r.save ctx s task 0 with
      | (.error e, s') => (.error (.wrapped "failed to save task" e), s')
      | (.ok id, s') => (.ok { ID := id, schema := task }, s')

/-- `TaskService.GetByID`: fetch and attach the requested identifier; a
storage error is returned unchanged. -/
def TaskService.GetByID {σ : Type} (r : Repo σ) (ctx : Ctx) (s : σ) (id : Nat) :
    Except GoError Task :=
  match r.getByID ctx s id with
  | .error e => .error e
  | .ok t => .ok { ID := id, schema := t }

/-- `TaskService.GetAll`: fetch all records and map them into tasks. -/
def TaskService.GetAll {σ : Type} (r : Repo σ) (ctx : Ctx) (s : σ) :
    Except GoError (List Task) :=
  match r.getAll ctx s with
  | .error e => .error (.wrapped "failed to get tasks" e)
  | .ok elems => .ok (elems.map fun e => { ID := e.ID, schema := e.Value })

/-- `TaskService.Update`: read the current record, overwrite all three
mutable fields unconditionally, validate, then save at the same identifier. -/
def TaskService.Update {σ : Type} (r : Repo σ) (ctx : Ctx) (s : σ) (id : Nat)
    (title description : String) (isDone : Bool) : Except GoError Unit × σ :=
  match r.getByID ctx s id with
  | .error e => (.error e, s)
  | .ok _ =>
      let task : TaskSchema := { Title := title, Description := description, IsDone := isDone }
      match Validate task with
      | .error e => (.error (.wrapped "validation failed" e), s)
      | .ok () =>
          match r.save ctx s task id with
          | (.error e, s') => (.error (.wrapped "failed to update task" e), s')
          | (.ok _, s') => (.ok (), s')

/-- `TaskService.Delete`: delegate directly to storage; the error (if any)
is returned unchanged. -/
def TaskService.Delete {σ : Type} (r : Repo σ) (ctx : Ctx) (s : σ) (id : Nat) :
    Except GoError Unit × σ :=
  r.del ctx s id

/-! ### Derived notions used by the claims -/

/-- Issue one auto-assigned `Save` (identifier 0) per listed value, on a live
context, collecting the returned identifiers (a live-context `Save` always
succeeds, so the `getD` default is dead). -/
def autoSaves {V : Type} : List V → InMemory V → List Nat × InMemory V
  | [], m => ([], m)
  | v :: vs, m =>
      let step := InMemory.Save none m v 0
      let rest := autoSaves vs step.2
      (step.1.toOption.getD 0 :: rest.1, rest.2)

/-- Stores reachable from a fresh engine through task-service operations
(any context, any arguments), via the in-memory storage. -/
inductive Reachable : InMemory TaskSchema → Prop where
  | init : Reachable NewInMemory
  | create (ctx : Ctx) (t d : String) {s : InMemory TaskSchema} :
      Reachable s → Reachable (TaskService.Create inMemoryRepo ctx s t d).2
  | update (ctx : Ctx) (id : Nat) (t d : String) (b : Bool) {s : InMemory TaskSchema} :
      Reachable s → Reachable (TaskService.Update inMemoryRepo ctx s id t d b).2
  | del (ctx : Ctx) (id : Nat) {s : InMemory TaskSchema} :
      Reachable s → Reachable (TaskService.Delete inMemoryRepo ctx s id).2

/-- The persistence invariant: every stored task has a non-empty trimmed
title. -/
def TitlesValid (s : InMemory TaskSchema) : Prop :=
  ∀ id t, mapGet s.data id = some t → goTrimSpace t.Title ≠ ""

/-- A storage stub whose every operation fails (the shape of
`mockTaskStorage` in the service tests, with `errors.New("database error")`). -/
def mockErrRepo : Repo Unit :=
  { save := fun _ _ _ _ => (.error (.other "database error"), ())
    getByID := fun _ _ _ => .error (.other "database error")
    getAll := fun _ _ => .error (.other "database error")
    del := fun _ _ _ => (.error (.other "database error"), ()) }

/-- A storage stub whose reads succeed but whose `Save` fails (the shape of
the service tests for save-time storage errors). -/
def mockSaveErrRepo : Repo Unit :=
  { save := fun _ _ _ _ => (.error (.other "database error"), ())
    getByID := fun _ _ _ => .ok { Title := "x", Description := "", IsDone := false }
    getAll := fun _ _ => .ok []
    del := fun _ _ _ => (.ok (), ()) }

/-! ## Helper lemmas -/

theorem mapGet_mapSet {V : Type} (d : List (Nat × V)) (k q : Nat) (v : V) :
    mapGet (mapSet d k v) q = if q = k then some v else mapGet d q := by
  induction d with
  | nil =>
    by_cases h : q = k
    · simp [mapSet, mapGet, h]
    · simp [mapSet, mapGet, h, Ne.symm h]
  | cons p rest ih =>
    obtain ⟨k0, v0⟩ := p
    by_cases h : k0 = k
    · subst h
      by_cases h' : q = k0 <;> simp [mapSet, mapGet, h', eq_comm]
    · by_cases h' : q = k0 <;> by_cases h'' : q = k <;>
        simp_all [mapSet, mapGet, eq_comm]

theorem mapGet_mapDel {V : Type} (d : List (Nat × V)) (k q : Nat) :
    mapGet (mapDel d k) q = if q = k then none else mapGet d q := by
  induction d with
  | nil => by_cases h : q = k <;> simp [mapDel, mapGet, h]
  | cons p rest ih =>
    obtain ⟨k0, v0⟩ := p
    by_cases h : k0 = k
    · subst h
      by_cases h' : q = k0 <;> simp_all [mapDel, mapGet, eq_comm]
    · by_cases h' : q = k0 <;> by_cases h'' : q = k <;>
        simp_all [mapDel, mapGet, eq_comm]

theorem errorsIs_self (e : GoError) : errorsIs e e = true := by
  cases e <;> simp [errorsIs]

theorem validate_ok_iff (t : TaskSchema) :
    Validate t = .ok () ↔ goTrimSpace t.Title ≠ "" := by
  unfold Validate
  by_cases h : goTrimSpace t.Title = "" <;> simp [h]

theorem validate_error_iff (t : TaskSchema) :
    Validate t = .error .emptyTitle ↔ goTrimSpace t.Title = "" := by
  unfold Validate
  by_cases h : goTrimSpace t.Title = "" <;> simp [h]

theorem trimChars_eq_nil_of_all_space {l : List Char}
    (h : ∀ c ∈ l, goIsSpace c) : trimChars l = [] := by
  have h1 : l.dropWhile goIsSpace = [] := List.dropWhile_eq_nil_iff.mpr h
  simp [trimChars, h1]

theorem any_not_space_of_trim_ne {s : String} (h : goTrimSpace s ≠ "") :
    s.toList.any (fun c => !goIsSpace c) = true := by
  by_contra hc
  apply h
  have hall : ∀ c ∈ s.toList, goIsSpace c := by
    intro c hmem
    by_contra hcs
    exact hc (List.any_eq_true.mpr ⟨c, hmem, by simp [hcs]⟩)
  have : trimChars s.toList = [] := trimChars_eq_nil_of_all_space hall
  show String.mk (trimChars s.toList) = ""
  rw [this]

theorem uzero_lt_U64 : 0 < U64 := by norm_num [U64]

theorem autoSaves_ids {V : Type} (vs : List V) (w : Nat) (d : List (Nat × V))
    (hw : w < U64) :
    (autoSaves vs { serialID := w, data := d }).1
      = (List.range vs.length).map (fun k => (w + k) % U64) := by
  induction vs generalizing w d with
  | nil => simp [autoSaves]
  | cons v vs ih =>
    have hsave : InMemory.Save none { serialID := w, data := d } v 0
        = (.ok w, { serialID := (w + 1) % U64, data := mapSet d w v }) := by
      simp [InMemory.Save]
    have hmod : (w + 1) % U64 < U64 := Nat.mod_lt _ uzero_lt_U64
    rw [List.length_cons, List.range_succ_eq_map]
    simp only [autoSaves, hsave, Except.toOption, Option.getD, List.map_cons,
      List.map_map]
    rw [ih ((w + 1) % U64) (mapSet d w v) hmod]
    congr 1
    · simp [Nat.mod_eq_of_lt hw]
    · apply List.map_congr_left
      intro a _
      show ((w + 1) % U64 + a) % U64 = (w + Nat.succ a) % U64
      rw [Nat.mod_add_mod]
      congr 1
      omega

theorem autoSaves_ids_fresh {V : Type} (vs : List V) :
    (autoSaves vs (NewInMemory : InMemory V)).1
      = (List.range vs.length).map (fun k => (1 + k) % U64) :=
  autoSaves_ids vs 1 [] (by norm_num [U64])

theorem titlesValid_create (ctx : Ctx) (t d : String) (s : InMemory TaskSchema)
    (h : TitlesValid s) :
    TitlesValid (TaskService.Create inMemoryRepo ctx s t d).2 := by
  unfold TaskService.Create
  by_cases hv : goTrimSpace t = ""
  · simpa [Validate, hv] using h
  · cases ctx with
    | some e => simpa [Validate, hv, inMemoryRepo, InMemory.Save] using h
    | none =>
      have hsave : InMemory.Save none s
          { Title := t, Description := d, IsDone := false } 0
          = (.ok s.serialID,
             { serialID := (s.serialID + 1) % U64,
               data := mapSet s.data s.serialID
                 { Title := t, Description := d, IsDone := false } }) := by
        simp [InMemory.Save]
      simp only [Validate, hv, if_false, inMemoryRepo, hsave]
      intro id tt hget
      rw [mapGet_mapSet] at hget
      by_cases hid : id = s.serialID
      · rw [if_pos hid] at hget
        cases hget
        exact hv
      · rw [if_neg hid] at hget
        exact h id tt hget

theorem titlesValid_update (ctx : Ctx) (id : Nat) (t d : String) (b : Bool)
    (s : InMemory TaskSchema) (h : TitlesValid s) :
    TitlesValid (TaskService.Update inMemoryRepo ctx s id t d b).2 := by
  unfold TaskService.Update
  cases ctx with
  | some e => simpa [inMemoryRepo, InMemory.GetByID] using h
  | none =>
    cases hget : mapGet s.data id with
    | none => simpa [inMemoryRepo, InMemory.GetByID, hget] using h
    | some t0 =>
      by_cases hv : goTrimSpace t = ""
      · simpa [inMemoryRepo, InMemory.GetByID, hget, Validate, hv] using h
      · simp only [inMemoryRepo, InMemory.GetByID, hget, Validate, hv, if_false,
          InMemory.Save]
        intro q tt hq
        rw [mapGet_mapSet] at hq
        by_cases hqid : q = (if id = 0 then s.serialID else id)
        · rw [if_pos hqid] at hq
          cases hq
          exact hv
        · rw [if_neg hqid] at hq
          exact h q tt hq

theorem titlesValid_delete (ctx : Ctx) (id : Nat) (s : InMemory TaskSchema)
    (h : TitlesValid s) :
    TitlesValid (TaskService.Delete inMemoryRepo ctx s id).2 := by
  unfold TaskService.Delete
  cases ctx with
  | some e => simpa [inMemoryRepo, InMemory.Delete] using h
  | none =>
    cases hget : mapGet s.data id with
    | none => simpa [inMemoryRepo, InMemory.Delete, hget] using h
    | some t0 =>
      simp only [inMemoryRepo, InMemory.Delete, hget]
      intro q tt hq
      rw [mapGet_mapDel] at hq
      by_cases hqid : q = id
      · rw [if_pos hqid] at hq
        cases hq
      · rw [if_neg hqid] at hq
        exact h q tt hq

theorem reachable_titlesValid {s : InMemory TaskSchema} (h : Reachable s) :
    TitlesValid s := by
  induction h with
  | init => intro id t hget; cases hget
  | create ctx t d _ ih => exact titlesValid_create ctx t d _ ih
  | update ctx id t d b _ ih => exact titlesValid_update ctx id t d b _ ih
  | del ctx id _ ih => exact titlesValid_delete ctx id _ ih

/-! ## Claims -/

/-- Claim C1, counterexample: the sequence counter is a `uint64` and wraps,
so after `2 ^ 64` auto-assigned Saves on a fresh store the returned
identifiers are not strictly increasing in issuance order (the last one is
0, issued after `2 ^ 64 - 1`). -/
theorem C1_counterexample :
    ¬ List.Pairwise (· < ·)
      (autoSaves (List.replicate U64 ()) (NewInMemory : InMemory Unit)).1 := by
  intro hp
  have hU : 2 ≤ U64 := by norm_num [U64]
  have hids : (autoSaves (List.replicate U64 ()) (NewInMemory : InMemory Unit)).1
      = (List.range U64).map (fun k => (1 + k) % U64) := by
    have h := autoSaves_ids_fresh (V := Unit) (List.replicate U64 ())
    rwa [List.length_replicate] at h
  rw [hids, List.pairwise_iff_getElem] at hp
  have hlen : ((List.range U64).map (fun k => (1 + k) % U64)).length = U64 := by
    simp
  have h1 : U64 - 2 < ((List.range U64).map fun k => (1 + k) % U64).length := by
    rw [hlen]; omega
  have h2 : U64 - 1 < ((List.range U64).map fun k => (1 + k) % U64).length := by
    rw [hlen]; omega
  have hlt := hp (U64 - 2) (U64 - 1) h1 h2 (by omega)
  rw [List.getElem_map, List.getElem_map, List.getElem_range, List.getElem_range]
    at hlt
  have e1 : 1 + (U64 - 2) = U64 - 1 := by omega
  have e2 : 1 + (U64 - 1) = U64 := by omega
  rw [e1, e2, Nat.mod_self, Nat.mod_eq_of_lt (by omega)] at hlt
  exact Nat.not_lt_zero _ hlt

/-- Claim C1 (amended): for every sequence of at most `2 ^ 64 - 1` calls to
storage Save with identifier 0 on a freshly constructed store, the returned
identifiers are strictly increasing in issuance order, pairwise distinct,
and the first one is 1.  (Beyond that the `uint64` counter wraps.) -/
theorem C1_auto_ids_distinct_increasing (V : Type) (vs : List V)
    (hlen : vs.length < U64) :
    List.Pairwise (· < ·) (autoSaves vs (NewInMemory : InMemory V)).1 ∧
    (autoSaves vs (NewInMemory : InMemory V)).1.Nodup ∧
    (vs ≠ [] → (autoSaves vs (NewInMemory : InMemory V)).1.head? = some 1) := by
  have hids : (autoSaves vs (NewInMemory : InMemory V)).1
      = (List.range vs.length).map (fun k => 1 + k) := by
    rw [autoSaves_ids_fresh]
    apply List.map_congr_left
    intro a ha
    have : a < vs.length := List.mem_range.mp ha
    exact Nat.mod_eq_of_lt (by omega)
  have hpair : List.Pairwise (· < ·)
      ((List.range vs.length).map (fun k => 1 + k)) := by
    refine List.Pairwise.map _ ?_ (List.pairwise_lt_range vs.length)
    intro a b hab
    omega
  rw [hids]
  refine ⟨hpair, hpair.imp (fun hab => Nat.ne_of_lt hab), ?_⟩
  intro hne
  rw [List.head?_map]
  cases vs with
  | nil => exact absurd rfl hne
  | cons v vs' =>
    rw [List.length_cons, List.range_succ_eq_map]
    rfl

/-- Witness for C1 at three auto-assigned saves: identifiers 1, 2, 3. -/
theorem C1_witness :
    ([(), (), ()] : List Unit).length < U64 ∧
    (List.Pairwise (· < ·)
        (autoSaves [(), (), ()] (NewInMemory : InMemory Unit)).1 ∧
      (autoSaves [(), (), ()] (NewInMemory : InMemory Unit)).1.Nodup ∧
      (([(), (), ()] : List Unit) ≠ [] →
        (autoSaves [(), (), ()] (NewInMemory : InMemory Unit)).1.head? = some 1)) :=
  ⟨by decide, C1_auto_ids_distinct_increasing Unit [(), (), ()] (by decide)⟩

/-- Claim C2: every storage operation called with an already-fired
cancellation/deadline signal fails with that signal's Cancelled or
DeadlineExceeded error and leaves the map and sequence counter unchanged. -/
theorem C2_cancelled_noop (V : Type) (e : CtxErr) (m : InMemory V) (v : V)
    (id : Nat) :
    InMemory.Save (some e) m v id = (.error e.toErr, m) ∧
    InMemory.GetByID (some e) m id = (.error e.toErr : Except GoError V) ∧
    InMemory.GetAll (some e) m = (.error e.toErr : Except GoError (List (Elem V))) ∧
    InMemory.Delete (some e) m id = (.error e.toErr, m) :=
  ⟨rfl, rfl, rfl, rfl⟩

/-- Claim C3: every task found in a store reachable from the empty store
through any sequence of task-service Create/Update/Delete operations has a
non-empty trimmed title, i.e. contains at least one non-whitespace
character. -/
theorem C3_reachable_title_invariant (s : InMemory TaskSchema)
    (hs : Reachable s) (id : Nat) (t : TaskSchema)
    (hget : mapGet s.data id = some t) :
    goTrimSpace t.Title ≠ "" ∧
    t.Title.toList.any (fun c => !goIsSpace c) = true := by
  have h := reachable_titlesValid hs id t hget
  exact ⟨h, any_not_space_of_trim_ne h⟩

/-- Witness for C3 at the store reached by one Create. -/
theorem C3_witness :
    mapGet (TaskService.Create inMemoryRepo none NewInMemory "hello" "d").2.data 1
      = some { Title := "hello", Description := "d", IsDone := false } ∧
    (goTrimSpace (TaskSchema.mk "hello" "d" false).Title ≠ "" ∧
      (TaskSchema.mk "hello" "d" false).Title.toList.any
        (fun c => !goIsSpace c) = true) :=
  ⟨by decide,
    C3_reachable_title_invariant _
      (Reachable.create none "hello" "d" Reachable.init) 1 _ (by decide)⟩

/-- Claim C4: for every value, non-zero identifier and prior store state,
Save succeeds returning that identifier and an immediately following
GetByID returns the value. -/
theorem C4_upsert_then_get (V : Type) (v : V) (id : Nat) (s : InMemory V)
    (hid : id ≠ 0) :
    (InMemory.Save none s v id).1 = .ok id ∧
    InMemory.GetByID none (InMemory.Save none s v id).2 id = .ok v := by
  have hsave : InMemory.Save none s v id
      = (.ok id, { serialID := s.serialID, data := mapSet s.data id v }) := by
    simp [InMemory.Save, hid]
  rw [hsave]
  exact ⟨rfl, by simp [InMemory.GetByID, mapGet_mapSet]⟩

/-- Witness for C4 at identifier 5 on the fresh store. -/
theorem C4_witness :
    (5 : Nat) ≠ 0 ∧
    ((InMemory.Save none (NewInMemory : InMemory Unit) () 5).1 = .ok 5 ∧
      InMemory.GetByID none
        (InMemory.Save none (NewInMemory : InMemory Unit) () 5).2 5 = .ok ()) :=
  ⟨by decide, C4_upsert_then_get Unit () 5 NewInMemory (by decide)⟩

/-- Claim C5, counterexample: Update on an id absent from the store (here
id 1 on the fresh store) with a whitespace-only title fails with NotFound,
not with a validation error — the service reads the record before
validating. -/
theorem C5_counterexample :
    TaskService.Update inMemoryRepo none NewInMemory 1 "   " "D" true
      = (.error .notExists, NewInMemory) ∧
    errorsIs GoError.notExists .emptyTitle = false ∧
    GoError.isWrapper GoError.notExists = false := by
  decide

/-- Claim C5 (amended): Create with an empty title fails with a validation
error without touching any storage backend; Update with a whitespace-only
title on an id present in the store fails with a validation error leaving
the store unchanged; on an absent id it fails with NotFound, still leaving
the store unchanged. -/
theorem C5_validation_gate {σ : Type} (r : Repo σ) (ctx : Ctx) (s0 : σ)
    (d : String) (s s2 : InMemory TaskSchema) (id id2 : Nat) (t0 : TaskSchema)
    (d1 d2 : String) (b1 b2 : Bool)
    (hid : mapGet s.data id = some t0) (hid2 : mapGet s2.data id2 = none) :
    TaskService.Create r ctx s0 "" d
      = (.error (.wrapped "validation failed" .emptyTitle), s0) ∧
    errorsIs (GoError.wrapped "validation failed" .emptyTitle) .emptyTitle
      = true ∧
    TaskService.Update inMemoryRepo none s id "   " d1 b1
      = (.error (.wrapped "validation failed" .emptyTitle), s) ∧
    TaskService.Update inMemoryRepo none s2 id2 "   " d2 b2
      = (.error .notExists, s2) := by
  have htrim : goTrimSpace "   " = "" := by decide
  refine ⟨?_, by decide, ?_, ?_⟩
  · simp [TaskService.Create, Validate, show goTrimSpace "" = "" from rfl]
  · simp [TaskService.Update, inMemoryRepo, InMemory.GetByID, hid, Validate, htrim]
  · simp [TaskService.Update, inMemoryRepo, InMemory.GetByID, hid2]

/-- Witness for C5: a store holding one task at id 1, and the fresh store
with id 7 absent. -/
theorem C5_witness :
    mapGet (TaskService.Create inMemoryRepo none NewInMemory "T" "D").2.data 1
      = some { Title := "T", Description := "D", IsDone := false } ∧
    mapGet (NewInMemory : InMemory TaskSchema).data 7 = none ∧
    (TaskService.Create mockErrRepo none () "" "D"
        = (.error (.wrapped "validation failed" .emptyTitle), ()) ∧
      errorsIs (GoError.wrapped "validation failed" .emptyTitle) .emptyTitle
        = true ∧
      TaskService.Update inMemoryRepo none
          (TaskService.Create inMemoryRepo none NewInMemory "T" "D").2 1
          "   " "D" true
        = (.error (.wrapped "validation failed" .emptyTitle),
           (TaskService.Create inMemoryRepo none NewInMemory "T" "D").2) ∧
      TaskService.Update inMemoryRepo none NewInMemory 7 "   " "D" false
        = (.error .notExists, NewInMemory)) :=
  ⟨by decide, by decide,
    C5_validation_gate mockErrRepo none () "D"
      (TaskService.Create inMemoryRepo none NewInMemory "T" "D").2 NewInMemory
      1 7 { Title := "T", Description := "D", IsDone := false } "D" "D"
      true false (by decide) (by decide)⟩

/-- Claim C6: for every store, title with non-empty trimmed form and
description, Create succeeds returning a populated task (completion flag
false), and service GetByID on the returned identifier yields that task:
title, description, flag and identifier all attached. -/
theorem C6_create_roundtrip (s : InMemory TaskSchema) (T D : String)
    (hT : goTrimSpace T ≠ "") :
    ∃ id, (TaskService.Create inMemoryRepo none s T D).1
        = .ok { ID := id,
                schema := { Title := T, Description := D, IsDone := false } } ∧
      TaskService.GetByID inMemoryRepo none
          (TaskService.Create inMemoryRepo none s T D).2 id
        = .ok { ID := id,
                schema := { Title := T, Description := D, IsDone := false } } := by
  refine ⟨s.serialID, ?_, ?_⟩ <;>
    simp [TaskService.Create, TaskService.GetByID, inMemoryRepo, InMemory.Save,
      InMemory.GetByID, Validate, hT, mapGet_mapSet]

/-- Witness for C6 with title "T", description "D" on the fresh store. -/
theorem C6_witness :
    goTrimSpace "T" ≠ "" ∧
    (∃ id, (TaskService.Create inMemoryRepo none NewInMemory "T" "D").1
        = .ok { ID := id,
                schema := { Title := "T", Description := "D", IsDone := false } } ∧
      TaskService.GetByID inMemoryRepo none
          (TaskService.Create inMemoryRepo none NewInMemory "T" "D").2 id
        = .ok { ID := id,
                schema := { Title := "T", Description := "D", IsDone := false } }) :=
  ⟨by decide, C6_create_roundtrip NewInMemory "T" "D" (by decide)⟩

/-- Claim C7, counterexample: service GetByID does not wrap the storage
error with operation context — on the fresh store the storage reports
NotFound and the service returns that very error, unwrapped. -/
theorem C7_counterexample :
    InMemory.GetByID none (NewInMemory : InMemory TaskSchema) 1
      = .error .notExists ∧
    TaskService.GetByID inMemoryRepo none NewInMemory 1 = .error .notExists ∧
    GoError.isWrapper GoError.notExists = false := by
  decide

/-- Claim C7 (amended): Create wraps its Save error, GetAll wraps its fetch
error, and Update wraps its Save error with operation context; GetByID,
Delete, and Update's initial read return the storage error unchanged; in
every case the error is neither swallowed nor replaced and still matches
the storage error in kind (errors.Is). -/
theorem C7_error_propagation {σ : Type} (r : Repo σ) (ctx : Ctx) (s s' : σ)
    (t d : String) (id : Nat) (b : Bool) (e : GoError) (t0 : TaskSchema) :
    (Validate { Title := t, Description := d, IsDone := false } = .ok () →
      r.save ctx s { Title := t, Description := d, IsDone := false } 0
        = (.error e, s') →
      (TaskService.Create r ctx s t d).1
        = .error (.wrapped "failed to save task" e) ∧
      errorsIs (GoError.wrapped "failed to save task" e) e = true) ∧
    (r.getByID ctx s id = .error e →
      TaskService.GetByID r ctx s id = .error e ∧ errorsIs e e = true) ∧
    (r.getAll ctx s = .error e →
      TaskService.GetAll r ctx s = .error (.wrapped "failed to get tasks" e) ∧
      errorsIs (GoError.wrapped "failed to get tasks" e) e = true) ∧
    (r.getByID ctx s id = .error e →
      (TaskService.Update r ctx s id t d b).1 = .error e) ∧
    (r.getByID ctx s id = .ok t0 →
      Validate { Title := t, Description := d, IsDone := b } = .ok () →
      r.save ctx s { Title := t, Description := d, IsDone := b } id
        = (.error e, s') →
      (TaskService.Update r ctx s id t d b).1
        = .error (.wrapped "failed to update task" e) ∧
      errorsIs (GoError.wrapped "failed to update task" e) e = true) ∧
    (r.del ctx s id = (.error e, s') →
      TaskService.Delete r ctx s id = (.error e, s')) := by
  refine ⟨?_, ?_, ?_, ?_, ?_, ?_⟩
  · intro hv hsave
    simp [TaskService.Create, hv, hsave, errorsIs, errorsIs_self]
  · intro hget
    simp [TaskService.GetByID, hget, errorsIs_self]
  · intro hgetAll
    simp [TaskService.GetAll, hgetAll, errorsIs, errorsIs_self]
  · intro hget
    simp [TaskService.Update, hget]
  · intro hget hv hsave
    simp [TaskService.Update, hget, hv, hsave, errorsIs, errorsIs_self]
  · intro hdel
    simp [TaskService.Delete, hdel]

/-- Witness for C7 over the two storage stubs from the service tests. -/
theorem C7_witness :
    ((TaskService.Create mockSaveErrRepo none () "x" "").1
        = .error (.wrapped "failed to save task" (.other "database error")) ∧
      errorsIs (GoError.wrapped "failed to save task" (.other "database error"))
        (.other "database error") = true) ∧
    (TaskService.GetByID mockErrRepo none () 1
        = .error (.other "database error") ∧
      errorsIs (GoError.other "database error") (.other "database error")
        = true) ∧
    (TaskService.GetAll mockErrRepo none ()
        = .error (.wrapped "failed to get tasks" (.other "database error")) ∧
      errorsIs (GoError.wrapped "failed to get tasks" (.other "database error"))
        (.other "database error") = true) ∧
    (TaskService.Update mockErrRepo none () 1 "x" "" true).1
        = .error (.other "database error") ∧
    ((TaskService.Update mockSaveErrRepo none () 1 "x" "" true).1
        = .error (.wrapped "failed to update task" (.other "database error")) ∧
      errorsIs (GoError.wrapped "failed to update task" (.other "database error"))
        (.other "database error") = true) ∧
    TaskService.Delete mockErrRepo none () 1
        = (.error (.other "database error"), ()) := by
  have hS := C7_error_propagation mockSaveErrRepo none () () "x" "" 1 true
    (GoError.other "database error") ⟨"x", "", false⟩
  have hE := C7_error_propagation mockErrRepo none () () "x" "" 1 true
    (GoError.other "database error") ⟨"x", "", false⟩
  exact ⟨hS.1 (by decide) (by decide), hE.2.1 (by decide), hE.2.2.1 (by decide),
    hE.2.2.2.1 (by decide), hS.2.2.2.2.1 (by decide) (by decide) (by decide),
    hE.2.2.2.2.2 (by decide)⟩

/-- Claim C8: once an identifier present in the store has been deleted,
GetByID on it fails with NotFound and a second Delete also fails with
NotFound. -/
theorem C8_delete_finality (V : Type) (s : InMemory V) (id : Nat) (v : V)
    (h : mapGet s.data id = some v) :
    (InMemory.Delete none s id).1 = .ok () ∧
    InMemory.GetByID none (InMemory.Delete none s id).2 id
      = (.error .notExists : Except GoError V) ∧
    InMemory.Delete none (InMemory.Delete none s id).2 id
      = (.error .notExists, (InMemory.Delete none s id).2) := by
  have hdel : InMemory.Delete none s id
      = (.ok (), { serialID := s.serialID, data := mapDel s.data id }) := by
    simp [InMemory.Delete, h]
  rw [hdel]
  refine ⟨rfl, ?_, ?_⟩ <;>
    simp [InMemory.GetByID, InMemory.Delete, mapGet_mapDel]

/-- Witness for C8 at identifier 1 after one explicit save. -/
theorem C8_witness :
    mapGet (InMemory.Save none (NewInMemory : InMemory Unit) () 1).2.data 1
      = some () ∧
    ((InMemory.Delete none (InMemory.Save none (NewInMemory : InMemory Unit) () 1).2 1).1
        = .ok () ∧
      InMemory.GetByID none
          (InMemory.Delete none
            (InMemory.Save none (NewInMemory : InMemory Unit) () 1).2 1).2 1
        = (.error .notExists : Except GoError Unit) ∧
      InMemory.Delete none
          (InMemory.Delete none
            (InMemory.Save none (NewInMemory : InMemory Unit) () 1).2 1).2 1
        = (.error .notExists,
           (InMemory.Delete none
             (InMemory.Save none (NewInMemory : InMemory Unit) () 1).2 1).2)) :=
  ⟨by decide, C8_delete_finality Unit _ 1 () (by decide)⟩

/-- Claim C9: an explicit non-zero-identifier Save stores the value at
exactly that identifier, returns it, changes no other key and leaves the
sequence counter unchanged — so a later auto-assigned Save can return the
same identifier (after Save(v, 1) on a fresh store, the next auto-assigned
Save also returns 1). -/
theorem C9_explicit_save_frame (V : Type) (v : V) (id : Nat) (s : InMemory V)
    (hid : id ≠ 0) :
    (InMemory.Save none s v id).1 = .ok id ∧
    (InMemory.Save none s v id).2.serialID = s.serialID ∧
    mapGet (InMemory.Save none s v id).2.data id = some v ∧
    (∀ k, k ≠ id → mapGet (InMemory.Save none s v id).2.data k = mapGet s.data k) ∧
    (InMemory.Save none
        (InMemory.Save none (NewInMemory : InMemory Unit) () 1).2 () 0).1
      = .ok 1 := by
  have hsave : InMemory.Save none s v id
      = (.ok id, { serialID := s.serialID, data := mapSet s.data id v }) := by
    simp [InMemory.Save, hid]
  rw [hsave]
  refine ⟨rfl, rfl, by simp [mapGet_mapSet], ?_, by decide⟩
  intro k hk
  simp [mapGet_mapSet, hk]

/-- Witness for C9 at identifier 3 on the fresh store. -/
theorem C9_witness :
    (3 : Nat) ≠ 0 ∧
    ((InMemory.Save none (NewInMemory : InMemory Unit) () 3).1 = .ok 3 ∧
      (InMemory.Save none (NewInMemory : InMemory Unit) () 3).2.serialID
        = (NewInMemory : InMemory Unit).serialID ∧
      mapGet (InMemory.Save none (NewInMemory : InMemory Unit) () 3).2.data 3
        = some () ∧
      (∀ k, k ≠ 3 →
        mapGet (InMemory.Save none (NewInMemory : InMemory Unit) () 3).2.data k
          = mapGet (NewInMemory : InMemory Unit).data k) ∧
      (InMemory.Save none
          (InMemory.Save none (NewInMemory : InMemory Unit) () 1).2 () 0).1
        = .ok 1) :=
  ⟨by decide, C9_explicit_save_frame Unit () 3 NewInMemory (by decide)⟩

/-- Claim C10: Create and Update persist the accepted title and description
character for character — the stored record is built from the argument
strings themselves (whitespace intact); trimming occurs only inside the
validity check. -/
theorem C10_verbatim_persistence (s s2 : InMemory TaskSchema)
    (T D T2 D2 : String) (id : Nat) (t0 : TaskSchema) (b : Bool)
    (hT : goTrimSpace T ≠ "") (hT2 : goTrimSpace T2 ≠ "")
    (hid : mapGet s2.data id = some t0) :
    mapGet (TaskService.Create inMemoryRepo none s T D).2.data s.serialID
      = some { Title := T, Description := D, IsDone := false } ∧
    mapGet (TaskService.Update inMemoryRepo none s2 id T2 D2 b).2.data
        (if id = 0 then s2.serialID else id)
      = some { Title := T2, Description := D2, IsDone := b } := by
  constructor
  · simp [TaskService.Create, inMemoryRepo, InMemory.Save, Validate, hT,
      mapGet_mapSet]
  · simp [TaskService.Update, inMemoryRepo, InMemory.GetByID, hid, Validate,
      hT2, InMemory.Save, mapGet_mapSet]

/-- Witness for C10 with the whitespace-carrying title " pad ". -/
theorem C10_witness :
    goTrimSpace " pad " ≠ "" ∧
    goTrimSpace " pad2 " ≠ "" ∧
    mapGet (TaskService.Create inMemoryRepo none NewInMemory "T" "D").2.data 1
      = some { Title := "T", Description := "D", IsDone := false } ∧
    (mapGet (TaskService.Create inMemoryRepo none NewInMemory " pad " " d ").2.data
        (NewInMemory : InMemory TaskSchema).serialID
      = some { Title := " pad ", Description := " d ", IsDone := false } ∧
    mapGet (TaskService.Update inMemoryRepo none
        (TaskService.Create inMemoryRepo none NewInMemory "T" "D").2 1
        " pad2 " " d2 " true).2.data
        (if (1 : Nat) = 0
          then (TaskService.Create inMemoryRepo none NewInMemory "T" "D").2.serialID
          else 1)
      = some { Title := " pad2 ", Description := " d2 ", IsDone := true }) :=
  ⟨by decide, by decide, by decide,
    C10_verbatim_persistence NewInMemory
      (TaskService.Create inMemoryRepo none NewInMemory "T" "D").2
      " pad " " d " " pad2 " " d2 " 1
      { Title := "T", Description := "D", IsDone := false } true
      (by decide) (by decide) (by decide)⟩

end Todos
